import Mathlib

/-!
Verification of the NeonRunner game-simulation loop.

The definitions below are a shallow embedding of the runner component
(`GameCanvas`): its constants, game state, the `jump` handler, and the
per-frame `gameLoop` body (difficulty schedule, player physics, obstacle
spawning, obstacle movement / collision / scoring / removal).  JavaScript
numbers are modelled as rationals; timestamps are milliseconds as in
`Date.now()`.  The per-frame random obstacle height is passed in as a
parameter.  The leaderboard route handler is modelled at the end.
-/

namespace NeonRunner

/-- Game constants from the source. -/
def GRAVITY : ℚ := 55 / 100

def JUMP_FORCE : ℚ := -11

def BASE_SPEED_RATE : ℚ := 4 / 10

def MAX_SPEED_RATE : ℚ := 4

def SPEED_STEP : ℚ := 4 / 10

def TIME_STEP : ℚ := 15

def STARTING_SPAWN_INTERVAL : ℚ := 1800

def MIN_SPAWN_INTERVAL : ℚ := 800

def SPAWN_REDUCTION : ℚ := 150

/-- The canvas element is created with width 800. -/
def CANVAS_WIDTH : ℚ := 800

/-- The canvas element is created with height 400. -/
def CANVAS_HEIGHT : ℚ := 400

/-- Player state: `gameState.current.player` in the source. -/
structure Player where
  x : ℚ
  y : ℚ
  width : ℚ
  height : ℚ
  dy : ℚ
  grounded : Bool
  jumpCount : ℕ
deriving DecidableEq

/-- Obstacle record as pushed by the spawn branch of the loop. -/
structure Obstacle where
  x : ℚ
  y : ℚ
  width : ℚ
  height : ℚ
  passed : Bool
deriving DecidableEq

/-- The whole mutable game state `gameState.current`. -/
structure GameState where
  player : Player
  obstacles : List Obstacle
  lastSpawnTime : ℚ
  startTime : ℚ
  active : Bool
  groundY : ℚ
  speedRate : ℚ
  spawnInterval : ℚ
deriving DecidableEq

/-- Result of one invocation of the loop body: the new state, the score
delta emitted through `onScoreUpdate` this frame, and whether the frame
ended the run (`onGameOver` was called). -/
structure StepResult where
  state : GameState
  scoreDelta : ℕ
  terminal : Bool
deriving DecidableEq

/-- The state installed when `isPlaying` becomes true (run start). -/
def startState (now : ℚ) : GameState :=
  { player :=
      { x := 80
        y := CANVAS_HEIGHT - 60 - 32
        width := 32
        height := 32
        dy := 0
        grounded := true
        jumpCount := 0 }
    obstacles := []
    lastSpawnTime := now
    startTime := now
    active := true
    groundY := CANVAS_HEIGHT - 60
    speedRate := BASE_SPEED_RATE
    spawnInterval := STARTING_SPAWN_INTERVAL }

/-- The `jump` handler: a no-op unless the run is active; applies the
upward impulse when grounded or fewer than two jumps have been used. -/
def jump (s : GameState) : GameState :=
  if s.active = false then s
  else if s.player.grounded = true ∨ s.player.jumpCount < 2 then
    { s with player :=
        { s.player with dy := JUMP_FORCE, grounded := false,
                        jumpCount := s.player.jumpCount + 1 } }
  else s

/-- `step = Math.floor(elapsedSeconds / TIME_STEP)` where
`elapsedSeconds = (now - startTime) / 1000`; the argument is the elapsed
time in milliseconds. -/
def diffStep (elapsedMs : ℚ) : ℤ :=
  ⌊(elapsedMs / 1000) / TIME_STEP⌋

/-- `speedRate = Math.min(BASE_SPEED_RATE + SPEED_STEP * step, MAX_SPEED_RATE)`. -/
def speedRateAt (elapsedMs : ℚ) : ℚ :=
  min (BASE_SPEED_RATE + SPEED_STEP * (diffStep elapsedMs : ℚ)) MAX_SPEED_RATE

/-- `spawnInterval = Math.max(MIN_SPAWN_INTERVAL, STARTING_SPAWN_INTERVAL - SPAWN_REDUCTION * step)`. -/
def spawnIntervalAt (elapsedMs : ℚ) : ℚ :=
  max MIN_SPAWN_INTERVAL (STARTING_SPAWN_INTERVAL - SPAWN_REDUCTION * (diffStep elapsedMs : ℚ))

/-- The difficulty recomputation at the top of the loop body. -/
def difficultyUpdate (now : ℚ) (s : GameState) : GameState :=
  { s with speedRate := speedRateAt (now - s.startTime)
           spawnInterval := spawnIntervalAt (now - s.startTime) }

/-- Player physics: `dy += GRAVITY; y += dy`, then the ground clamp
(`y = groundY - height`, `dy = 0`, `grounded = true`, `jumpCount = 0`)
when `y + height >= groundY`. -/
def physicsStep (groundY : ℚ) (p : Player) : Player :=
  let dy2 := p.dy + GRAVITY
  let y2 := p.y + dy2
  if y2 + p.height ≥ groundY then
    { p with y := groundY - p.height, dy := 0, grounded := true, jumpCount := 0 }
  else
    { p with y := y2, dy := dy2 }

/-- The player-physics phase of the loop body. -/
def playerUpdate (s : GameState) : GameState :=
  { s with player := physicsStep s.groundY s.player }

/-- The spawn branch: when `now - lastSpawnTime >= spawnInterval`, reset
`lastSpawnTime` and push one obstacle at the right edge of the canvas;
`h` stands for the frame's random height `Math.floor(Math.random()*60+40)`. -/
def spawnPhase (now : ℚ) (h : ℚ) (s : GameState) : GameState :=
  if now - s.lastSpawnTime ≥ s.spawnInterval then
    { s with lastSpawnTime := now
             obstacles := s.obstacles ++
               [{ x := CANVAS_WIDTH, y := s.groundY - h, width := 32,
                  height := h, passed := false }] }
  else s

/-- `obs.x -= currentSpeed`. -/
def moveObs (v : ℚ) (o : Obstacle) : Obstacle :=
  { o with x := o.x - v }

/-- The axis-aligned overlap test with the 4-pixel inset on the player box. -/
def collides (p : Player) (o : Obstacle) : Bool :=
  decide (p.x + 4 < o.x + o.width) &&
  decide (p.x + p.width - 4 > o.x) &&
  decide (p.y + 4 < o.y + o.height) &&
  decide (p.y + p.height - 4 > o.y)

/-- The scoring condition `!obs.passed && player.x > obs.x + obs.width`. -/
def crossed (p : Player) (o : Obstacle) : Bool :=
  !o.passed && decide (p.x > o.x + o.width)

/-- Score delta contributed by one obstacle this frame. -/
def obsDelta (p : Player) (o : Obstacle) : ℕ :=
  if crossed p o = true then 10 else 0

/-- The `passed` flag update for one obstacle this frame. -/
def obsMark (p : Player) (o : Obstacle) : Obstacle :=
  if crossed p o = true then { o with passed := true } else o

/-- The removal condition `obs.x + obs.width < -50`. -/
def offscreen (o : Obstacle) : Bool :=
  decide (o.x + o.width < -50)

/-- The obstacle loop, which walks the array from the last index down to 0,
given here the obstacle list already reversed (head = last index).  Each
obstacle is moved, then tested for collision (collision returns at once,
leaving the remaining obstacles untouched), then scored, then removed when
far enough off screen.  Returns the surviving list (still reversed), the
accumulated score delta, and the collision flag. -/
def processRev (p : Player) (v : ℚ) : List Obstacle → List Obstacle × ℕ × Bool
  | [] => ([], 0, false)
  | o :: rest =>
    let m := moveObs v o
    if collides p m = true then (m :: rest, 0, true)
    else
      let r := processRev p v rest
      ((if offscreen (obsMark p m) = true then r.1 else obsMark p m :: r.1),
       obsDelta p m + r.2.1, r.2.2)

/-- The obstacle loop on the list in array order. -/
def updateObstacles (p : Player) (v : ℚ) (l : List Obstacle) :
    List Obstacle × ℕ × Bool :=
  let r := processRev p v l.reverse
  (r.1.reverse, r.2.1, r.2.2)

/-- The whole loop body (`gameLoop`) at timestamp `now`, with `h` the
frame's random obstacle height: difficulty recomputation, player physics,
spawning, then the obstacle loop; on collision `active` is set to false
and the function returns at once (drawing and rescheduling are outside
the model). -/
def gameLoop (now : ℚ) (h : ℚ) (s : GameState) : StepResult :=
  let s1 := difficultyUpdate now s
  let s2 := playerUpdate s1
  let s3 := spawnPhase now h s2
  let r := updateObstacles s3.player (6 * s3.speedRate) s3.obstacles
  let act := if r.2.2 = true then false else s3.active
  { state := { s3 with obstacles := r.1, active := act }
    scoreDelta := r.2.1
    terminal := r.2.2 }

/-- States reachable from a run start through the engine's entry points. -/
inductive Reachable : GameState → Prop
  | start (now : ℚ) : Reachable (startState now)
  | jump (s : GameState) : Reachable s → Reachable (jump s)
  | frame (s : GameState) (now h : ℚ) :
      Reachable s → Reachable (gameLoop now h s).state

/-- The whole lifetime of one obstacle seen through repeated frames: each
frame moves it by that frame's speed, credits its score delta and flips its
`passed` flag, exactly as the obstacle loop does.  Returns the total score
the obstacle contributed over the given frames and its final record. -/
def obsLifetime : List (Player × ℚ) → Obstacle → ℕ × Obstacle
  | [], o => (0, o)
  | (p, v) :: rest, o =>
    let m := moveObs v o
    let r := obsLifetime rest (obsMark p m)
    (obsDelta p m + r.1, r.2)

/-- The jump-count and groundedness invariant maintained by the engine. -/
def PlayerInv (p : Player) : Prop :=
  p.jumpCount ≤ 2 ∧ (p.grounded = true → p.jumpCount = 0)

/-- Concrete run state for Scenario C: base difficulty (elapsed 0, so
`currentSpeed = 6 * 0.4 = 2.4`), a grounded player, and one already-scored
obstacle whose x will reach exactly -50 on this frame. -/
def scenarioState : GameState :=
  { player :=
      { x := 80, y := 308, width := 32, height := 32, dy := 0,
        grounded := true, jumpCount := 0 }
    obstacles := [{ x := -238/5, y := 300, width := 32, height := 40, passed := true }]
    lastSpawnTime := 1000
    startTime := 1000
    active := true
    groundY := 340
    speedRate := BASE_SPEED_RATE
    spawnInterval := STARTING_SPAWN_INTERVAL }

/-- Concrete run state whose single obstacle overlaps the inset player box
on the next frame. -/
def crashState : GameState :=
  { player :=
      { x := 80, y := 308, width := 32, height := 32, dy := 0,
        grounded := true, jumpCount := 0 }
    obstacles := [{ x := 80, y := 308, width := 32, height := 32, passed := false }]
    lastSpawnTime := 1000
    startTime := 1000
    active := true
    groundY := 340
    speedRate := BASE_SPEED_RATE
    spawnInterval := STARTING_SPAWN_INTERVAL }

/-- Concrete terminated state (`active = false`) with the player airborne,
used to show the loop body still mutates state when invoked after the run
has ended. -/
def idleProbe : GameState :=
  { player :=
      { x := 80, y := 100, width := 32, height := 32, dy := 0,
        grounded := false, jumpCount := 2 }
    obstacles := []
    lastSpawnTime := 0
    startTime := 0
    active := false
    groundY := 340
    speedRate := BASE_SPEED_RATE
    spawnInterval := STARTING_SPAWN_INTERVAL }

/-- A leaderboard record as returned by the scores API. -/
structure ScoreRecord where
  id : ℕ
  playerName : String
  score : ℤ
deriving DecidableEq

/-- An HTTP response of the POST /scores handler: the status code, the
created record (201 case) and the error message object (400 case). -/
structure PostResponse where
  status : ℕ
  record : Option ScoreRecord
  message : Option String
deriving DecidableEq

/-- Modelled from the spec: the request body schema `api.scores.create.input`
lives in `@shared/routes`, which is not under src/; per the spec it accepts
a non-empty `playerName` of at most some maximum length together with a
non-negative integer `score`. -/
def validScoreInput (maxLen : ℕ) (name : String) (sc : ℤ) : Bool :=
  decide (name.length ≠ 0) && decide (name.length ≤ maxLen) && decide (0 ≤ sc)

/-- The POST /scores route handler from `server/routes.ts`: parse the body
against the schema; on success create the record through storage and respond
201 with it; on a validation error respond 400 with a `message` object and
create nothing.  `storage.createScore` is not under src/ and is modelled
from the spec as appending a fresh record to the store. -/
def postScores (maxLen : ℕ) (store : List ScoreRecord) (name : String) (sc : ℤ) :
    PostResponse × List ScoreRecord :=
  if validScoreInput maxLen name sc = true then
    let r : ScoreRecord := { id := store.length + 1, playerName := name, score := sc }
    ({ status := 201, record := some r, message := none }, store ++ [r])
  else
    ({ status := 400, record := none, message := some "Invalid input" }, store)

/-- A grounded sample player at the run's start position. -/
def samplePlayer : Player :=
  { x := 80, y := 308, width := 32, height := 32, dy := 0, grounded := true, jumpCount := 0 }

/-- A sample obstacle already fully behind the player and not yet scored. -/
def sampleObstacle : Obstacle :=
  { x := 0, y := 300, width := 32, height := 40, passed := false }

lemma spawnPhase_player (now h : ℚ) (s : GameState) :
    (spawnPhase now h s).player = s.player := by
  unfold spawnPhase; split <;> rfl

lemma spawnPhase_groundY (now h : ℚ) (s : GameState) :
    (spawnPhase now h s).groundY = s.groundY := by
  unfold spawnPhase; split <;> rfl

lemma spawnPhase_speedRate (now h : ℚ) (s : GameState) :
    (spawnPhase now h s).speedRate = s.speedRate := by
  unfold spawnPhase; split <;> rfl

lemma spawnPhase_spawnInterval (now h : ℚ) (s : GameState) :
    (spawnPhase now h s).spawnInterval = s.spawnInterval := by
  unfold spawnPhase; split <;> rfl

lemma spawnPhase_active (now h : ℚ) (s : GameState) :
    (spawnPhase now h s).active = s.active := by
  unfold spawnPhase; split <;> rfl

lemma spawnPhase_startTime (now h : ℚ) (s : GameState) :
    (spawnPhase now h s).startTime = s.startTime := by
  unfold spawnPhase; split <;> rfl

lemma spawnPhase_obstacles_length (now h : ℚ) (s : GameState) :
    (spawnPhase now h s).obstacles.length ≤ s.obstacles.length + 1 := by
  unfold spawnPhase; split <;> simp

lemma gameLoop_speedRate (now h : ℚ) (s : GameState) :
    (gameLoop now h s).state.speedRate = speedRateAt (now - s.startTime) := by
  simp [gameLoop, spawnPhase_speedRate, playerUpdate, difficultyUpdate]

lemma gameLoop_spawnInterval (now h : ℚ) (s : GameState) :
    (gameLoop now h s).state.spawnInterval = spawnIntervalAt (now - s.startTime) := by
  simp [gameLoop, spawnPhase_spawnInterval, playerUpdate, difficultyUpdate]

lemma gameLoop_player (now h : ℚ) (s : GameState) :
    (gameLoop now h s).state.player = physicsStep s.groundY s.player := by
  simp [gameLoop, spawnPhase_player, playerUpdate, difficultyUpdate]

lemma gameLoop_groundY (now h : ℚ) (s : GameState) :
    (gameLoop now h s).state.groundY = s.groundY := by
  simp [gameLoop, spawnPhase_groundY, playerUpdate, difficultyUpdate]

lemma diffStep_mono {e1 e2 : ℚ} (h : e1 ≤ e2) : diffStep e1 ≤ diffStep e2 := by
  unfold diffStep
  have h2 : e1 / 1000 / TIME_STEP ≤ e2 / 1000 / TIME_STEP := by
    unfold TIME_STEP
    have h1000 : e1 / 1000 ≤ e2 / 1000 := by
      apply div_le_div_of_nonneg_right h
      norm_num
    apply div_le_div_of_nonneg_right h1000
    norm_num
  exact Int.floor_le_floor h2

/-- Claim C1: on every loop-body call the difficulty values are exactly the
clamped staircase formulas of the elapsed time, which are constant between
`TIME_STEP`-second boundaries. -/
theorem difficulty_schedule_formula (now h : ℚ) (s : GameState) :
    (gameLoop now h s).state.speedRate
      = min (BASE_SPEED_RATE + SPEED_STEP
              * ((⌊((now - s.startTime) / 1000) / TIME_STEP⌋ : ℤ) : ℚ)) MAX_SPEED_RATE
  ∧ (gameLoop now h s).state.spawnInterval
      = max MIN_SPAWN_INTERVAL (STARTING_SPAWN_INTERVAL - SPAWN_REDUCTION
              * ((⌊((now - s.startTime) / 1000) / TIME_STEP⌋ : ℤ) : ℚ))
  ∧ (∀ e1 e2 : ℚ, diffStep e1 = diffStep e2 →
        speedRateAt e1 = speedRateAt e2 ∧ spawnIntervalAt e1 = spawnIntervalAt e2)
  ∧ (∀ (k : ℤ) (e : ℚ),
        (k : ℚ) * (1000 * TIME_STEP) ≤ e → e < ((k : ℚ) + 1) * (1000 * TIME_STEP) →
        diffStep e = k) := by
  refine ⟨?_, ?_, ?_, ?_⟩
  · rw [gameLoop_speedRate]; rfl
  · rw [gameLoop_spawnInterval]; rfl
  · intro e1 e2 he
    constructor <;> simp [speedRateAt, spawnIntervalAt, he]
  · intro k e hlo hhi
    unfold diffStep TIME_STEP
    rw [div_div]
    norm_num
    rw [Int.floor_eq_iff]
    constructor
    · rw [le_div_iff₀ (by norm_num : (0:ℚ) < 15000)]
      unfold TIME_STEP at hlo
      linarith
    · rw [div_lt_iff₀ (by norm_num : (0:ℚ) < 15000)]
      unfold TIME_STEP at hhi
      linarith

/-- Witness for C1 at concrete inputs: elapsed 20000 ms sits in the second
staircase interval, and the loop body reports the staircase values. -/
theorem difficulty_schedule_formula_witness :
    diffStep 20000 = 1 ∧ (gameLoop 0 40 (startState 0)).state.speedRate
      = min (BASE_SPEED_RATE + SPEED_STEP * ((⌊((0 - (startState 0).startTime) / 1000) / TIME_STEP⌋ : ℤ) : ℚ)) MAX_SPEED_RATE := by
  constructor
  · exact (difficulty_schedule_formula 0 40 (startState 0)).2.2.2 1 20000
      (by norm_num [TIME_STEP]) (by norm_num [TIME_STEP])
  · exact (difficulty_schedule_formula 0 40 (startState 0)).1

/-- Claim C2: the difficulty schedule is monotone in elapsed time, with
`speedRate` capped at `MAX_SPEED_RATE` and `spawnInterval` floored at
`MIN_SPAWN_INTERVAL`. -/
theorem difficulty_monotone (e1 e2 : ℚ) (hlt : e1 < e2) :
    speedRateAt e1 ≤ speedRateAt e2
  ∧ spawnIntervalAt e2 ≤ spawnIntervalAt e1
  ∧ (∀ e : ℚ, speedRateAt e ≤ MAX_SPEED_RATE)
  ∧ (∀ e : ℚ, MIN_SPAWN_INTERVAL ≤ spawnIntervalAt e) := by
  have hstep : diffStep e1 ≤ diffStep e2 := diffStep_mono hlt.le
  have hcast : ((diffStep e1 : ℤ) : ℚ) ≤ ((diffStep e2 : ℤ) : ℚ) := by
    exact_mod_cast hstep
  refine ⟨?_, ?_, ?_, ?_⟩
  · unfold speedRateAt
    apply min_le_min _ le_rfl
    have := mul_le_mul_of_nonneg_left hcast (by norm_num [SPEED_STEP] : (0:ℚ) ≤ SPEED_STEP)
    linarith
  · unfold spawnIntervalAt
    apply max_le_max le_rfl
    have := mul_le_mul_of_nonneg_left hcast (by norm_num [SPAWN_REDUCTION] : (0:ℚ) ≤ SPAWN_REDUCTION)
    linarith
  · intro e; exact min_le_right _ _
  · intro e; exact le_max_left _ _

/-- Witness for C2 at concrete elapsed times 0 ms and 16000 ms. -/
theorem difficulty_monotone_witness :
    speedRateAt 0 ≤ speedRateAt 16000 ∧ spawnIntervalAt 16000 ≤ spawnIntervalAt 0 ∧
    speedRateAt 16000 ≤ MAX_SPEED_RATE ∧ MIN_SPAWN_INTERVAL ≤ spawnIntervalAt 16000 := by
  have h := difficulty_monotone 0 16000 (by norm_num)
  exact ⟨h.1, h.2.1, h.2.2.1 16000, h.2.2.2 16000⟩

/-- Claim C6: the per-frame integrator applies gravity to the velocity and
then the updated velocity to the position (semi-implicit Euler); whenever
the integrated position meets or crosses the ground line the player is
clamped exactly to `groundY - height` with `dy = 0`, `grounded = true`,
`jumpCount = 0`; after every loop-body call the player's base stays at or
above the ground line. -/
theorem ground_clamp (now hgt g : ℚ) (s : GameState) (p : Player) :
    (physicsStep g p).y + (physicsStep g p).height ≤ g
  ∧ (g ≤ p.y + (p.dy + GRAVITY) + p.height →
      physicsStep g p
        = { p with y := g - p.height, dy := 0, grounded := true, jumpCount := 0 })
  ∧ (p.y + (p.dy + GRAVITY) + p.height < g →
      physicsStep g p
        = { p with y := p.y + (p.dy + GRAVITY), dy := p.dy + GRAVITY })
  ∧ (gameLoop now hgt s).state.player = physicsStep s.groundY s.player
  ∧ (gameLoop now hgt s).state.groundY = s.groundY
  ∧ (gameLoop now hgt s).state.player.y + (gameLoop now hgt s).state.player.height
      ≤ s.groundY := by
  have hclamp : (physicsStep g p).y + (physicsStep g p).height ≤ g := by
    unfold physicsStep
    dsimp only
    split
    · simp
    · rename_i hlt
      simp only [ge_iff_le, not_le] at hlt
      simp
      linarith
  refine ⟨hclamp, ?_, ?_, gameLoop_player now hgt s, gameLoop_groundY now hgt s, ?_⟩
  · intro hge
    unfold physicsStep
    rw [if_pos]
    simpa [add_assoc] using hge
  · intro hlt
    unfold physicsStep
    rw [if_neg]
    simp only [not_le]
    linarith
  · rw [gameLoop_player]
    unfold physicsStep
    dsimp only
    split
    · simp
    · rename_i hlt
      simp only [ge_iff_le, not_le] at hlt
      simp
      linarith

/-- Witness for C6: a grounded player at the start state is clamped back to
the ground line by the next frame. -/
theorem ground_clamp_witness :
    physicsStep 340 { x := 80, y := 308, width := 32, height := 32, dy := 0,
                      grounded := false, jumpCount := 2 }
      = { x := 80, y := 308, width := 32, height := 32, dy := 0,
          grounded := true, jumpCount := 0 } := by
  have h := (ground_clamp 0 40 340 (startState 0)
      { x := 80, y := 308, width := 32, height := 32, dy := 0,
        grounded := false, jumpCount := 2 }).2.1 (by norm_num [GRAVITY])
  norm_num at h
  exact h

lemma processRev_length (p : Player) (v : ℚ) :
    ∀ l : List Obstacle, (processRev p v l).1.length ≤ l.length := by
  intro l
  induction l with
  | nil => simp [processRev]
  | cons o rest ih =>
    unfold processRev
    dsimp only
    split
    · simp
    · split
      · simp only [List.length_cons]
        omega
      · simp only [List.length_cons]
        omega

/-- Claim C7: the spawn branch creates at most one obstacle per loop-body
call: exactly one fresh obstacle at the right edge (and `lastSpawnTime`
reset to `now`) when `now - lastSpawnTime >= spawnInterval`, none
otherwise, no matter how far past the threshold the call is. -/
theorem spawn_at_most_one (now h : ℚ) (s : GameState) :
    (now - s.lastSpawnTime ≥ s.spawnInterval →
      spawnPhase now h s
        = { s with lastSpawnTime := now
                   obstacles := s.obstacles ++
                     [{ x := CANVAS_WIDTH, y := s.groundY - h, width := 32,
                        height := h, passed := false }] })
  ∧ (now - s.lastSpawnTime < s.spawnInterval → spawnPhase now h s = s)
  ∧ (spawnPhase now h s).obstacles.length ≤ s.obstacles.length + 1
  ∧ (gameLoop now h s).state.obstacles.length ≤ s.obstacles.length + 1 := by
  refine ⟨?_, ?_, spawnPhase_obstacles_length now h s, ?_⟩
  · intro hge
    unfold spawnPhase
    rw [if_pos hge]
  · intro hlt
    unfold spawnPhase
    rw [if_neg (not_le.mpr hlt)]
  · show (gameLoop now h s).state.obstacles.length ≤ s.obstacles.length + 1
    have h1 : (gameLoop now h s).state.obstacles.length
        ≤ (spawnPhase now h (playerUpdate (difficultyUpdate now s))).obstacles.length := by
      simp only [gameLoop, updateObstacles]
      calc (processRev (spawnPhase now h (playerUpdate (difficultyUpdate now s))).player
              (6 * (spawnPhase now h (playerUpdate (difficultyUpdate now s))).speedRate)
              (spawnPhase now h (playerUpdate (difficultyUpdate now s))).obstacles.reverse).1.reverse.length
          = (processRev (spawnPhase now h (playerUpdate (difficultyUpdate now s))).player
              (6 * (spawnPhase now h (playerUpdate (difficultyUpdate now s))).speedRate)
              (spawnPhase now h (playerUpdate (difficultyUpdate now s))).obstacles.reverse).1.length := by
            simp
        _ ≤ (spawnPhase now h (playerUpdate (difficultyUpdate now s))).obstacles.reverse.length :=
            processRev_length _ _ _
        _ = (spawnPhase now h (playerUpdate (difficultyUpdate now s))).obstacles.length := by
            simp
    have h2 : (spawnPhase now h (playerUpdate (difficultyUpdate now s))).obstacles.length
        ≤ (playerUpdate (difficultyUpdate now s)).obstacles.length + 1 :=
      spawnPhase_obstacles_length _ _ _
    have h3 : (playerUpdate (difficultyUpdate now s)).obstacles.length
        = s.obstacles.length := rfl
    omega

/-- Witness for C7: at the start state the spawn window has not yet elapsed,
so the frame leaves the obstacle count at zero (at most one more than the
initial zero). -/
theorem spawn_at_most_one_witness :
    spawnPhase 0 40 (startState 0) = startState 0 ∧
    (gameLoop 0 40 (startState 0)).state.obstacles.length
      ≤ (startState 0).obstacles.length + 1 := by
  constructor
  · exact (spawn_at_most_one 0 40 (startState 0)).2.1
      (by norm_num [startState, STARTING_SPAWN_INTERVAL, CANVAS_HEIGHT])
  · exact (spawn_at_most_one 0 40 (startState 0)).2.2.2

lemma obsMark_passed_of_passed (p : Player) (o : Obstacle) (hp : o.passed = true) :
    obsMark p o = o := by
  unfold obsMark crossed
  simp [hp]

lemma obsDelta_eq_zero_of_passed (p : Player) (o : Obstacle) (hp : o.passed = true) :
    obsDelta p o = 0 := by
  unfold obsDelta crossed
  simp [hp]

lemma moveObs_passed (v : ℚ) (o : Obstacle) : (moveObs v o).passed = o.passed := rfl

lemma obsMark_passed_mono (p : Player) (o : Obstacle) (hp : o.passed = true) :
    (obsMark p o).passed = true := by
  rw [obsMark_passed_of_passed p o hp]; exact hp

lemma obsLifetime_of_passed (ps : List (Player × ℚ)) (o : Obstacle)
    (hp : o.passed = true) :
    (obsLifetime ps o).1 = 0 ∧ (obsLifetime ps o).2.passed = true := by
  induction ps generalizing o with
  | nil => exact ⟨rfl, hp⟩
  | cons pv rest ih =>
    obtain ⟨p, v⟩ := pv
    have hm : (moveObs v o).passed = true := by rw [moveObs_passed]; exact hp
    have hmark : (obsMark p (moveObs v o)).passed = true := obsMark_passed_mono _ _ hm
    have hr := ih (obsMark p (moveObs v o)) hmark
    unfold obsLifetime
    dsimp only
    rw [obsDelta_eq_zero_of_passed p (moveObs v o) hm]
    exact ⟨by rw [hr.1], hr.2⟩

lemma obsLifetime_le (ps : List (Player × ℚ)) (o : Obstacle) :
    (obsLifetime ps o).1 ≤ 10 := by
  induction ps generalizing o with
  | nil => simp [obsLifetime]
  | cons pv rest ih =>
    obtain ⟨p, v⟩ := pv
    unfold obsLifetime
    dsimp only
    by_cases hc : crossed p (moveObs v o) = true
    · have hd : obsDelta p (moveObs v o) = 10 := by unfold obsDelta; rw [if_pos hc]
      have hmark : (obsMark p (moveObs v o)).passed = true := by
        unfold obsMark; rw [if_pos hc]
      have hz := (obsLifetime_of_passed rest _ hmark).1
      omega
    · have hd : obsDelta p (moveObs v o) = 0 := by
        unfold obsDelta; rw [if_neg hc]
      have := ih (obsMark p (moveObs v o))
      omega

lemma processRev_delta_no_collision (p : Player) (v : ℚ) :
    ∀ l : List Obstacle, (processRev p v l).2.2 = false →
      (processRev p v l).2.1 = (l.map fun o => obsDelta p (moveObs v o)).sum := by
  intro l
  induction l with
  | nil => intro _; rfl
  | cons o rest ih =>
    intro hnc
    unfold processRev at hnc ⊢
    dsimp only at hnc ⊢
    by_cases hc : collides p (moveObs v o) = true
    · rw [if_pos hc] at hnc; simp at hnc
    · rw [if_neg hc] at hnc ⊢
      dsimp only at hnc ⊢
      rw [List.map_cons, List.sum_cons, ih hnc]

/-- Claim C5: each obstacle yields at most one +10 score event over its
whole lifetime; the delta is emitted exactly on the frame where the
player's leading edge first exceeds the obstacle's (moved) trailing edge,
at which point `passed` flips to true and never flips back; a frame's
total delta is the sum of the per-obstacle deltas. -/
theorem scoring_idempotence (p : Player) (v : ℚ) (o : Obstacle)
    (ps : List (Player × ℚ)) (l : List Obstacle) :
    (o.passed = true → obsMark p o = o ∧ obsDelta p o = 0)
  ∧ (obsDelta p o = 10 ↔ (o.passed = false ∧ p.x > o.x + o.width))
  ∧ (obsDelta p o = 0 ∨ obsDelta p o = 10)
  ∧ ((obsMark p o).passed = true ↔ (o.passed = true ∨ p.x > o.x + o.width))
  ∧ (obsDelta p o = 10 → (obsMark p o).passed = true ∧ obsDelta p (obsMark p o) = 0)
  ∧ (o.passed = true → (obsLifetime ps o).1 = 0)
  ∧ ((obsLifetime ps o).1 ≤ 10)
  ∧ ((processRev p v l).2.2 = false →
      (processRev p v l).2.1 = (l.map fun ob => obsDelta p (moveObs v ob)).sum) := by
  have hdelta10 : obsDelta p o = 10 ↔ (o.passed = false ∧ p.x > o.x + o.width) := by
    unfold obsDelta crossed
    split
    · rename_i hcond
      simp only [Bool.and_eq_true, Bool.not_eq_true', decide_eq_true_eq] at hcond
      simp [hcond]
    · rename_i hcond
      simp only [Bool.and_eq_true, Bool.not_eq_true', decide_eq_true_eq, not_and] at hcond
      constructor
      · intro hten; omega
      · intro hcontra
        exact absurd hcontra.2 (by simpa [hcontra.1] using hcond)
  refine ⟨fun hp => ⟨obsMark_passed_of_passed p o hp, obsDelta_eq_zero_of_passed p o hp⟩,
    hdelta10, ?_, ?_, ?_, fun hp => (obsLifetime_of_passed ps o hp).1,
    obsLifetime_le ps o, processRev_delta_no_collision p v l⟩
  · unfold obsDelta
    split
    · right; rfl
    · left; rfl
  · unfold obsMark crossed
    split
    · rename_i hcond
      simp only [Bool.and_eq_true, Bool.not_eq_true', decide_eq_true_eq] at hcond
      simp [hcond.2]
    · rename_i hcond
      simp only [Bool.and_eq_true, Bool.not_eq_true', decide_eq_true_eq, not_and] at hcond
      constructor
      · intro hp; exact Or.inl hp
      · intro hor
        rcases hor with hp | hx
        · exact hp
        · cases hpass : o.passed
          · exact absurd hx (hcond (by simp [hpass]))
          · rfl
  · intro hten
    have hc := hdelta10.mp hten
    have hcrossed : crossed p o = true := by
      unfold crossed
      simp [hc.1, hc.2]
    have hflip : (obsMark p o).passed = true := by
      unfold obsMark
      rw [if_pos hcrossed]
    exact ⟨hflip, obsDelta_eq_zero_of_passed p (obsMark p o) hflip⟩

/-- Witness for C5: an unpassed obstacle fully behind the player scores 10
now, flips to passed, and scores 0 afterwards. -/
theorem scoring_idempotence_witness :
    obsDelta samplePlayer sampleObstacle = 10
  ∧ (obsMark samplePlayer sampleObstacle).passed = true := by
  have h := scoring_idempotence samplePlayer 0 sampleObstacle [] []
  have hten : obsDelta samplePlayer sampleObstacle = 10 :=
    h.2.1.mpr (by norm_num [samplePlayer, sampleObstacle])
  exact ⟨hten, (h.2.2.2.2.1 hten).1⟩

lemma processRev_no_collision_obstacles (p : Player) (v : ℚ) :
    ∀ l : List Obstacle, (processRev p v l).2.2 = false →
      (processRev p v l).1
        = ((l.map fun o => obsMark p (moveObs v o)).filter fun o => !offscreen o) := by
  intro l
  induction l with
  | nil => intro _; rfl
  | cons o rest ih =>
    intro hnc
    unfold processRev at hnc ⊢
    dsimp only at hnc ⊢
    by_cases hc : collides p (moveObs v o) = true
    · rw [if_pos hc] at hnc; simp at hnc
    · rw [if_neg hc] at hnc ⊢
      dsimp only at hnc ⊢
      rw [List.map_cons, List.filter_cons]
      by_cases hoff : offscreen (obsMark p (moveObs v o)) = true
      · rw [if_pos hoff, ih hnc]
        simp [hoff]
      · rw [if_neg hoff, ih hnc]
        simp [Bool.not_eq_true] at hoff
        simp [hoff]

/-- Counterexample to C8 as stated: at base speed (`currentSpeed = 2.4`) an
obstacle whose x reaches exactly -50 this frame (so `x <= -50` holds) is
NOT removed from the collection, because removal requires
`x + width < -50`. -/
theorem obstacle_removal_cex :
    (gameLoop 1000 40 scenarioState).state.obstacles
      = [{ x := -50, y := 300, width := 32, height := 40, passed := true }]
  ∧ ((-50 : ℚ) + 32 < -50) = False := by
  constructor
  · norm_num [gameLoop, difficultyUpdate, playerUpdate, spawnPhase, updateObstacles,
      processRev, scenarioState, physicsStep, speedRateAt, spawnIntervalAt, diffStep,
      TIME_STEP, BASE_SPEED_RATE, SPEED_STEP, MAX_SPEED_RATE, MIN_SPAWN_INTERVAL,
      STARTING_SPAWN_INTERVAL, SPAWN_REDUCTION, GRAVITY, CANVAS_WIDTH, CANVAS_HEIGHT,
      moveObs, collides, crossed, obsDelta, obsMark, offscreen]
  · norm_num

/-- Claim C8 (amended): on a frame without collision, an obstacle is removed
from the collection exactly when, after moving, its trailing edge has
crossed the fixed margin (`x + width < -50`, i.e. `x < -82` for width 32);
every surviving obstacle still satisfies `x + width >= -50`, and the output
collection only contains (moved, possibly marked) images of input obstacles,
so a removed obstacle never re-appears. -/
theorem obstacle_removal_amended (p : Player) (v : ℚ) (l : List Obstacle)
    (hnc : (updateObstacles p v l).2.2 = false) :
    (updateObstacles p v l).1
      = ((l.map fun o => obsMark p (moveObs v o)).filter fun o => !offscreen o)
  ∧ (∀ o : Obstacle, o ∈ (updateObstacles p v l).1 → ¬(o.x + o.width < -50))
  ∧ (∀ o : Obstacle, offscreen o = true ↔ o.x + o.width < -50)
  ∧ (updateObstacles p v l).1.length ≤ l.length := by
  have hnc2 : (processRev p v l.reverse).2.2 = false := hnc
  have hchar := processRev_no_collision_obstacles p v l.reverse hnc2
  have hmain : (updateObstacles p v l).1
      = ((l.map fun o => obsMark p (moveObs v o)).filter fun o => !offscreen o) := by
    show (processRev p v l.reverse).1.reverse = _
    rw [hchar, List.map_reverse, List.filter_reverse, List.reverse_reverse]
  refine ⟨hmain, ?_, ?_, ?_⟩
  · intro o ho
    rw [hmain] at ho
    have := List.of_mem_filter ho
    simp only [Bool.not_eq_true'] at this
    unfold offscreen at this
    simpa using this
  · intro o
    unfold offscreen
    simp
  · show (processRev p v l.reverse).1.reverse.length ≤ l.length
    rw [List.length_reverse]
    calc (processRev p v l.reverse).1.length ≤ l.reverse.length := processRev_length p v _
      _ = l.length := List.length_reverse _

/-- Witness for C8 (amended) on a concrete no-collision frame: the
scenario-state obstacle at x = -50 survives, and an obstacle moved past
x + width < -50 is dropped. -/
theorem obstacle_removal_amended_witness :
    (updateObstacles samplePlayer (12/5) [{ x := -238/5, y := 300, width := 32, height := 40, passed := true }]).1
      = [{ x := -50, y := 300, width := 32, height := 40, passed := true }]
  ∧ (updateObstacles samplePlayer (12/5) [{ x := -85, y := 300, width := 32, height := 40, passed := true }]).1
      = [] := by
  have h1 := obstacle_removal_amended samplePlayer (12/5)
    [{ x := -238/5, y := 300, width := 32, height := 40, passed := true }]
    (by norm_num [updateObstacles, processRev, samplePlayer, moveObs, collides,
        crossed, obsDelta, obsMark, offscreen])
  have h2 := obstacle_removal_amended samplePlayer (12/5)
    [{ x := -85, y := 300, width := 32, height := 40, passed := true }]
    (by norm_num [updateObstacles, processRev, samplePlayer, moveObs, collides,
        crossed, obsDelta, obsMark, offscreen])
  constructor
  · rw [h1.1]
    norm_num [obsMark, moveObs, crossed, samplePlayer, offscreen]
  · rw [h2.1]
    norm_num [obsMark, moveObs, crossed, samplePlayer, offscreen]

lemma processRev_collision_decomp (p : Player) (v : ℚ) :
    ∀ l : List Obstacle, (processRev p v l).2.2 = true →
      ∃ l1 o l2, l = l1 ++ o :: l2
        ∧ (processRev p v l1).2.2 = false
        ∧ collides p (moveObs v o) = true
        ∧ (processRev p v l).1 = (processRev p v l1).1 ++ moveObs v o :: l2
        ∧ (processRev p v l).2.1 = (processRev p v l1).2.1 := by
  intro l
  induction l with
  | nil => intro hcol; simp [processRev] at hcol
  | cons o rest ih =>
    intro hcol
    by_cases hc : collides p (moveObs v o) = true
    · refine ⟨[], o, rest, rfl, rfl, hc, ?_, ?_⟩
      · unfold processRev
        dsimp only
        rw [if_pos hc]
        rfl
      · unfold processRev
        dsimp only
        rw [if_pos hc]
    · have hrest : (processRev p v rest).2.2 = true := by
        unfold processRev at hcol
        dsimp only at hcol
        rw [if_neg hc] at hcol
        exact hcol
      obtain ⟨l1, o1, l2, hsplit, hl1nc, hcoll, hobs, hdelta⟩ := ih hrest
      have hhead : ∀ t : List Obstacle, processRev p v (o :: t)
          = ((if offscreen (obsMark p (moveObs v o)) = true
                then (processRev p v t).1 else obsMark p (moveObs v o) :: (processRev p v t).1),
             obsDelta p (moveObs v o) + (processRev p v t).2.1, (processRev p v t).2.2) := by
        intro t
        conv_lhs => rw [processRev]
        dsimp only
        rw [if_neg hc]
      refine ⟨o :: l1, o1, l2, by rw [hsplit, List.cons_append], ?_, hcoll, ?_, ?_⟩
      · rw [hhead l1]
        exact hl1nc
      · rw [hhead rest, hhead l1]
        dsimp only
        rw [hobs]
        by_cases hoff : offscreen (obsMark p (moveObs v o)) = true
        · rw [if_pos hoff, if_pos hoff]
        · rw [if_neg hoff, if_neg hoff, List.cons_append]
      · rw [hhead rest, hhead l1]
        dsimp only
        rw [hdelta]

/-- Claim C4: when the obstacle loop detects an overlap with the inset
player box it stops at once: the run is deactivated and reported terminal,
the obstacles not yet processed in that iteration keep their old positions,
flags, and membership verbatim, no score delta beyond the ones already
emitted is produced, and the run stays ended (no frame or jump reactivates
it) until a fresh start. -/
theorem terminal_finality (p : Player) (v : ℚ) (l : List Obstacle)
    (now h : ℚ) (s : GameState) :
    ((processRev p v l).2.2 = true →
      ∃ l1 o l2, l = l1 ++ o :: l2
        ∧ (processRev p v l1).2.2 = false
        ∧ collides p (moveObs v o) = true
        ∧ (processRev p v l).1 = (processRev p v l1).1 ++ moveObs v o :: l2
        ∧ (processRev p v l).2.1 = (processRev p v l1).2.1)
  ∧ ((gameLoop now h s).terminal = true → (gameLoop now h s).state.active = false)
  ∧ (s.active = false → (gameLoop now h s).state.active = false)
  ∧ (s.active = false → jump s = s) := by
  refine ⟨processRev_collision_decomp p v l, ?_, ?_, ?_⟩
  · intro hterm
    show (if (updateObstacles (spawnPhase now h (playerUpdate (difficultyUpdate now s))).player
            (6 * (spawnPhase now h (playerUpdate (difficultyUpdate now s))).speedRate)
            (spawnPhase now h (playerUpdate (difficultyUpdate now s))).obstacles).2.2 = true
          then false
          else (spawnPhase now h (playerUpdate (difficultyUpdate now s))).active) = false
    have : (updateObstacles (spawnPhase now h (playerUpdate (difficultyUpdate now s))).player
            (6 * (spawnPhase now h (playerUpdate (difficultyUpdate now s))).speedRate)
            (spawnPhase now h (playerUpdate (difficultyUpdate now s))).obstacles).2.2 = true := hterm
    rw [if_pos this]
  · intro hina
    show (if (updateObstacles (spawnPhase now h (playerUpdate (difficultyUpdate now s))).player
            (6 * (spawnPhase now h (playerUpdate (difficultyUpdate now s))).speedRate)
            (spawnPhase now h (playerUpdate (difficultyUpdate now s))).obstacles).2.2 = true
          then false
          else (spawnPhase now h (playerUpdate (difficultyUpdate now s))).active) = false
    split
    · rfl
    · rw [spawnPhase_active]
      exact hina
  · intro hina
    unfold jump
    rw [if_pos]
    rw [hina]

/-- Witness for C4: a frame of `crashState` collides, deactivates the run,
and a later frame or jump on the deactivated state keeps it ended. -/
theorem terminal_finality_witness :
    (gameLoop 1000 40 crashState).state.active = false
  ∧ jump { crashState with active := false } = { crashState with active := false } := by
  constructor
  · exact (terminal_finality samplePlayer 0 [] 1000 40 crashState).2.1
      (by norm_num [gameLoop, difficultyUpdate, playerUpdate, spawnPhase, updateObstacles,
        processRev, crashState, physicsStep, speedRateAt, spawnIntervalAt, diffStep,
        TIME_STEP, BASE_SPEED_RATE, SPEED_STEP, MAX_SPEED_RATE, MIN_SPAWN_INTERVAL,
        STARTING_SPAWN_INTERVAL, SPAWN_REDUCTION, GRAVITY, CANVAS_WIDTH, CANVAS_HEIGHT,
        moveObs, collides, crossed, obsDelta, obsMark, offscreen])
  · exact (terminal_finality samplePlayer 0 [] 1000 40
      { crashState with active := false }).2.2.2 rfl

lemma physicsStep_inv (g : ℚ) (p : Player) (hp : PlayerInv p) :
    PlayerInv (physicsStep g p) := by
  unfold physicsStep
  dsimp only
  split
  · exact ⟨Nat.zero_le 2, fun _ => rfl⟩
  · exact hp

lemma jump_inv (s : GameState) (hp : PlayerInv s.player) : PlayerInv (jump s).player := by
  unfold jump
  split
  · exact hp
  · split
    · rename_i hcond
      constructor
      · show s.player.jumpCount + 1 ≤ 2
        rcases hcond with hg | hlt
        · have := hp.2 hg
          omega
        · omega
      · intro hfalse
        exact absurd hfalse (by simp)
    · exact hp

lemma reachable_inv (s : GameState) (hs : Reachable s) : PlayerInv s.player := by
  induction hs with
  | start now => exact ⟨Nat.zero_le 2, fun _ => rfl⟩
  | jump s _ ih => exact jump_inv s ih
  | frame s now h _ ih =>
    rw [gameLoop_player]
    exact physicsStep_inv s.groundY s.player ih

/-- Claim C3: in every reachable state `jumpCount` never exceeds 2; `jump`
never decreases it and is a no-op once an airborne player has used both
jumps; within a frame `jumpCount` drops only through the ground clamp,
which also sets `grounded` and rests the player on the ground line. -/
theorem jump_cap (s : GameState) (hs : Reachable s) :
    s.player.jumpCount ≤ 2
  ∧ (s.player.grounded = false → s.player.jumpCount = 2 → jump s = s)
  ∧ s.player.jumpCount ≤ (jump s).player.jumpCount
  ∧ (∀ now h : ℚ, (gameLoop now h s).state.player.jumpCount < s.player.jumpCount →
        (gameLoop now h s).state.player.grounded = true
      ∧ (gameLoop now h s).state.player.jumpCount = 0
      ∧ (gameLoop now h s).state.player.y = s.groundY - s.player.height) := by
  refine ⟨(reachable_inv s hs).1, ?_, ?_, ?_⟩
  · intro hg h2
    by_cases ha : s.active = false
    · unfold jump
      rw [if_pos ha]
    · unfold jump
      rw [if_neg ha, if_neg]
      rintro (hg1 | hlt)
      · rw [hg] at hg1
        exact absurd hg1 (by simp)
      · omega
  · unfold jump
    split
    · exact le_rfl
    · split
      · show s.player.jumpCount ≤ s.player.jumpCount + 1
        omega
      · exact le_rfl
  · intro now h hlt
    rw [gameLoop_player] at hlt ⊢
    unfold physicsStep at hlt ⊢
    dsimp only at hlt ⊢
    by_cases hcond : s.player.y + (s.player.dy + GRAVITY) + s.player.height ≥ s.groundY
    · rw [if_pos hcond]
      exact ⟨rfl, rfl, rfl⟩
    · rw [if_neg hcond] at hlt
      dsimp only at hlt
      exact absurd hlt (lt_irrefl _)

/-- Witness for C3 at reachable states: the start state and the state after
one jump both satisfy the cap. -/
theorem jump_cap_witness :
    (startState 0).player.jumpCount ≤ 2
  ∧ (jump (startState 0)).player.jumpCount ≤ 2 := by
  constructor
  · exact (jump_cap (startState 0) (Reachable.start 0)).1
  · exact (jump_cap (jump (startState 0)) (Reachable.jump _ (Reachable.start 0))).1

/-- Claim C10: the frame update body never consults `active`: invoked on a
terminated state it performs exactly the same physics, difficulty, spawn,
movement, scoring and collision mutations as on an active one (only the
`active` output can differ); `jump` is where `active` is consulted (a no-op
when false); and a frame on the concrete terminated state `idleProbe` does
mutate the player, so it is not a no-op. -/
theorem update_ignores_active (now h : ℚ) (s : GameState) (b : Bool) :
    (gameLoop now h s).state.player = (gameLoop now h { s with active := b }).state.player
  ∧ (gameLoop now h s).state.obstacles = (gameLoop now h { s with active := b }).state.obstacles
  ∧ (gameLoop now h s).state.lastSpawnTime
      = (gameLoop now h { s with active := b }).state.lastSpawnTime
  ∧ (gameLoop now h s).state.speedRate = (gameLoop now h { s with active := b }).state.speedRate
  ∧ (gameLoop now h s).state.spawnInterval
      = (gameLoop now h { s with active := b }).state.spawnInterval
  ∧ (gameLoop now h s).scoreDelta = (gameLoop now h { s with active := b }).scoreDelta
  ∧ (gameLoop now h s).terminal = (gameLoop now h { s with active := b }).terminal
  ∧ (s.active = false → jump s = s)
  ∧ (gameLoop 0 40 idleProbe).state.player.y ≠ idleProbe.player.y := by
  have hcomm : spawnPhase now h (playerUpdate (difficultyUpdate now { s with active := b }))
      = { spawnPhase now h (playerUpdate (difficultyUpdate now s)) with active := b } := by
    show spawnPhase now h { playerUpdate (difficultyUpdate now s) with active := b } = _
    unfold spawnPhase
    dsimp only
    split
    · rfl
    · rfl
  refine ⟨?_, ?_, ?_, ?_, ?_, ?_, ?_, ?_, ?_⟩
  · simp only [gameLoop]
    rw [hcomm]
  · simp only [gameLoop]
    rw [hcomm]
  · simp only [gameLoop]
    rw [hcomm]
  · simp only [gameLoop]
    rw [hcomm]
  · simp only [gameLoop]
    rw [hcomm]
  · simp only [gameLoop]
    rw [hcomm]
  · simp only [gameLoop]
    rw [hcomm]
  · intro ha
    unfold jump
    rw [if_pos ha]
  · norm_num [gameLoop, difficultyUpdate, playerUpdate, spawnPhase, updateObstacles,
      processRev, idleProbe, physicsStep, speedRateAt, spawnIntervalAt, diffStep,
      TIME_STEP, BASE_SPEED_RATE, SPEED_STEP, MAX_SPEED_RATE, MIN_SPAWN_INTERVAL,
      STARTING_SPAWN_INTERVAL, SPAWN_REDUCTION, GRAVITY, CANVAS_WIDTH, CANVAS_HEIGHT,
      moveObs, collides, crossed, obsDelta, obsMark, offscreen]

/-- Witness for C10: the player mutation of a frame is the same whether the
probe state is marked active or not, and `jump` on the inactive probe is a
no-op. -/
theorem update_ignores_active_witness :
    (gameLoop 0 40 idleProbe).state.player
      = (gameLoop 0 40 { idleProbe with active := true }).state.player
  ∧ jump idleProbe = idleProbe := by
  constructor
  · exact (update_ignores_active 0 40 idleProbe true).1
  · exact (update_ignores_active 0 40 idleProbe true).2.2.2.2.2.2.2.1 rfl

/-- Claim C9: POST /scores with a valid body (non-empty name within the
length limit, non-negative integer score) responds 201 with the created
record, which is added to the store; any invalid body (e.g. empty name)
gets a 400 with a message object and creates no record. -/
theorem post_scores_validation (maxLen : ℕ) (store : List ScoreRecord)
    (name : String) (sc : ℤ) :
    (validScoreInput maxLen name sc = true →
        (postScores maxLen store name sc).1.status = 201
      ∧ (postScores maxLen store name sc).1.record
          = some { id := store.length + 1, playerName := name, score := sc }
      ∧ (postScores maxLen store name sc).2
          = store ++ [{ id := store.length + 1, playerName := name, score := sc }])
  ∧ (validScoreInput maxLen name sc = false →
        (postScores maxLen store name sc).1.status = 400
      ∧ (postScores maxLen store name sc).1.message ≠ none
      ∧ (postScores maxLen store name sc).2 = store)
  ∧ (name = "" → validScoreInput maxLen name sc = false)
  ∧ (validScoreInput maxLen name sc = true
      ↔ name.length ≠ 0 ∧ name.length ≤ maxLen ∧ 0 ≤ sc) := by
  refine ⟨?_, ?_, ?_, ?_⟩
  · intro hv
    unfold postScores
    rw [if_pos hv]
    exact ⟨rfl, rfl, rfl⟩
  · intro hv
    unfold postScores
    rw [if_neg (by rw [hv]; exact Bool.false_ne_true)]
    refine ⟨rfl, ?_, rfl⟩
    intro hmsg
    exact absurd hmsg (by simp)
  · intro hname
    unfold validScoreInput
    rw [hname]
    simp
  · unfold validScoreInput
    simp [and_assoc]

/-- Witness for C9 on concrete requests: name "AAA" with score 5 is
accepted with 201 and stored; the empty name is rejected with 400 and the
store is unchanged. -/
theorem post_scores_validation_witness :
    (postScores 10 [] "AAA" 5).1.status = 201
  ∧ (postScores 10 [] "AAA" 5).2
      = [{ id := 1, playerName := "AAA", score := 5 }]
  ∧ (postScores 10 [] "" 5).1.status = 400
  ∧ (postScores 10 [] "" 5).2 = [] := by
  have hok := (post_scores_validation 10 [] "AAA" 5).1 (by decide)
  have hbad := (post_scores_validation 10 [] "" 5).2.1
    ((post_scores_validation 10 [] "" 5).2.2.1 rfl)
  exact ⟨hok.1, hok.2.2, hbad.1, hbad.2.2⟩

end NeonRunner
